import Mathlib

/-!
Verification of the psila wire-format codecs: the network-layer link-status
command (`src/psila-data/src/network/commands/link_status.rs`) and the
device-profile management-LQI response (`src/psila-data/src/device_profile/link_quality.rs`).

Buffers are lists of bytes (`Fin 256`), mirroring Rust `&[u8]` slices.
Fallible Rust code (`Result`) is embedded in the `Res` type, which also has an
explicit `panic` outcome so that Rust panics (failed `assert!`, out-of-bounds
slicing or indexing) are visible in the model and can be reasoned about.
-/

set_option maxRecDepth 100000

namespace Psila

/-- A byte, as in a Rust `u8`. -/
abbrev Byte := Fin 256

/-- Truncate a natural number to a byte, as a Rust `as u8` / wrapping store does. -/
def toByte (n : Nat) : Byte := ⟨n % 256, Nat.mod_lt n (by decide)⟩

/-- Modelled from the spec: the error taxonomy surfaced to callers is an
aggregating error type with a length-mismatch kind (`WrongNumberOfBytes` in the
source) and an out-of-range kind carrying the offending value (spec sections 6
and 4.3). The error enum itself lives outside the two source files. -/
inductive Error where
  | wrongNumberOfBytes : Error
  | unsupportedValue : Nat → Error
deriving DecidableEq, Repr

/-- Outcome of running a piece of Rust code: a panic, a structured `Err`, or `Ok`. -/
inductive Res (α : Type) where
  | panic : Res α
  | error : Error → Res α
  | ok : α → Res α
deriving DecidableEq, Repr

/-- Sequencing of fallible Rust code: panics and errors propagate. -/
def Res.bind {α β : Type} : Res α → (α → Res β) → Res β
  | .panic, _ => .panic
  | .error e, _ => .error e
  | .ok a, f => f a

@[simp] theorem Res.bind_panic {α β : Type} (f : α → Res β) :
    Res.bind .panic f = .panic := rfl

@[simp] theorem Res.bind_error {α β : Type} (e : Error) (f : α → Res β) :
    Res.bind (.error e) f = .error e := rfl

@[simp] theorem Res.bind_ok {α β : Type} (a : α) (f : α → Res β) :
    Res.bind (.ok a) f = f a := rfl

theorem Res.bind_eq_ok {α β : Type} {x : Res α} {f : α → Res β} {b : β} :
    x.bind f = .ok b ↔ ∃ a, x = .ok a ∧ f a = .ok b := by
  cases x <;> simp [Res.bind]

theorem Res.bind_ne_panic {α β : Type} {x : Res α} {f : α → Res β}
    (hx : x ≠ .panic) (hf : ∀ a, f a ≠ .panic) : x.bind f ≠ .panic := by
  cases x with
  | panic => exact absurd rfl hx
  | error e => simp [Res.bind]
  | ok a => simpa [Res.bind] using hf a

theorem Res.bind_ne_panic_of_ok {α β : Type} {x : Res α} {f : α → Res β}
    (hx : x ≠ .panic) (hf : ∀ a, x = .ok a → f a ≠ .panic) : x.bind f ≠ .panic := by
  cases x with
  | panic => exact absurd rfl hx
  | error e => simp [Res.bind]
  | ok a => simpa [Res.bind] using hf a rfl

/-- The Rust slice expression `data[lo..hi]`: panics when the range is out of
bounds, otherwise yields the sub-slice. -/
def slice (data : List Byte) (lo hi : Nat) : Res (List Byte) :=
  if lo ≤ hi ∧ hi ≤ data.length then .ok ((data.drop lo).take (hi - lo)) else .panic

/-- The Rust slice expression `data[lo..]`: panics when `lo` exceeds the length. -/
def sliceFrom (data : List Byte) (lo : Nat) : Res (List Byte) :=
  if lo ≤ data.length then .ok (data.drop lo) else .panic

/-- The Rust indexing expression `data[i]`: panics when out of bounds. -/
def byteAt (data : List Byte) (i : Nat) : Res Byte :=
  if h : i < data.length then .ok (data.get ⟨i, h⟩) else .panic

/-- Overwrite `bs.length` bytes of `data` starting at `offset`, as a Rust write
through `&mut data[offset..offset + bs.length]` does. -/
def writeSlice (data : List Byte) (offset : Nat) (bs : List Byte) : List Byte :=
  data.take offset ++ bs ++ data.drop (offset + bs.length)

/-- Little-endian value of a byte sequence. -/
def leVal : List Byte → Nat
  | [] => 0
  | b :: rest => b.val + 256 * leVal rest

theorem slice_eq_ok {data : List Byte} {lo hi : Nat} (h1 : lo ≤ hi)
    (h2 : hi ≤ data.length) :
    slice data lo hi = .ok ((data.drop lo).take (hi - lo)) := by
  simp [slice, h1, h2]

theorem sliceFrom_eq_ok {data : List Byte} {lo : Nat} (h : lo ≤ data.length) :
    sliceFrom data lo = .ok (data.drop lo) := by
  simp [sliceFrom, h]

theorem byteAt_eq_ok {data : List Byte} {i : Nat} (h : i < data.length) :
    byteAt data i = .ok (data.get ⟨i, h⟩) := by
  simp [byteAt, h]

theorem byteAt_zero_cons (b : Byte) (l : List Byte) : byteAt (b :: l) 0 = .ok b := by
  simp [byteAt]

theorem byteAt_succ_cons (b : Byte) (l : List Byte) (i : Nat) :
    byteAt (b :: l) (i + 1) = byteAt l i := by
  by_cases h : i < l.length
  · rw [byteAt_eq_ok h, byteAt_eq_ok (by simpa using Nat.succ_lt_succ h)]
    simp
  · simp [byteAt, h, fun hh => h (Nat.lt_of_succ_lt_succ (by simpa using hh))]

/-- Modelled from the spec: `NetworkAddress` is an external fixed-width codec
for a 2-octet (16-bit) short address. Decode requires the buffer to be exactly
2 bytes and reads the value little-endian; encode requires the same length and
writes the value little-endian (spec sections 3 and 4.1). -/
structure NetworkAddress where
  value : Fin 65536
deriving DecidableEq, Repr

def NetworkAddress.unpack : List Byte → Res NetworkAddress
  | [b0, b1] =>
    .ok ⟨⟨b0.val + 256 * b1.val, by
      have h0 := b0.isLt
      have h1 := b1.isLt
      omega⟩⟩
  | _ => .error .wrongNumberOfBytes

def NetworkAddress.pack (a : NetworkAddress) (data : List Byte) : Res (List Byte) :=
  if data.length = 2 then .ok [toByte a.value.val, toByte (a.value.val / 256)]
  else .error .wrongNumberOfBytes

/-- Modelled from the spec: `ExtendedAddress` is an external fixed-width codec
for an 8-octet (64-bit) address, decoded little-endian from exactly 8 bytes
(spec sections 3 and 4.1). Only its decode path is used by the sources here. -/
structure ExtendedAddress where
  value : Nat
deriving DecidableEq, Repr

def ExtendedAddress.unpack (data : List Byte) : Res ExtendedAddress :=
  if data.length = 8 then .ok ⟨leVal data⟩ else .error .wrongNumberOfBytes

/-- Modelled from the spec: the device-profile status code is an external
closed enumeration; the only wire value this fragment's material fixes is
`Success => 0x00`, and any value outside the declared mapping is rejected with
an out-of-range error (spec sections 3, 4.3 and 8). -/
inductive Status where
  | Success : Status
deriving DecidableEq, Repr

def Status.tryFrom (v : Nat) : Res Status :=
  if v = 0 then .ok .Success else .error (.unsupportedValue v)

/-! ## Closed enumerations of `device_profile/link_quality.rs`

The variant-to-integer tables are the `extended_enum!` invocations in the
source. The lookup behaviour of the generated `TryFrom` code is modelled from
the spec (section 4.3): exact match against the declared table, otherwise an
out-of-range error carrying the rejected integer. -/

inductive DeviceType where
  | Coordinator : DeviceType
  | Router : DeviceType
  | EndDevice : DeviceType
  | Unknown : DeviceType
deriving DecidableEq, Repr

def DeviceType.tryFrom (v : Nat) : Res DeviceType :=
  if v = 0x00 then .ok .Coordinator
  else if v = 0x01 then .ok .Router
  else if v = 0x02 then .ok .EndDevice
  else if v = 0x03 then .ok .Unknown
  else .error (.unsupportedValue v)

inductive RxOnWhenIdle where
  | Off : RxOnWhenIdle
  | On : RxOnWhenIdle
  | Unknown : RxOnWhenIdle
deriving DecidableEq, Repr

def RxOnWhenIdle.tryFrom (v : Nat) : Res RxOnWhenIdle :=
  if v = 0x00 then .ok .Off
  else if v = 0x01 then .ok .On
  else if v = 0x02 then .ok .Unknown
  else .error (.unsupportedValue v)

inductive Relationship where
  | Parent : Relationship
  | Child : Relationship
  | Sibling : Relationship
  | NoneOfAbove : Relationship
  | PreviousChild : Relationship
deriving DecidableEq, Repr

def Relationship.tryFrom (v : Nat) : Res Relationship :=
  if v = 0x00 then .ok .Parent
  else if v = 0x01 then .ok .Child
  else if v = 0x02 then .ok .Sibling
  else if v = 0x03 then .ok .NoneOfAbove
  else if v = 0x04 then .ok .PreviousChild
  else .error (.unsupportedValue v)

inductive PermitJoining where
  | Yes : PermitJoining
  | No : PermitJoining
  | Unknown : PermitJoining
deriving DecidableEq, Repr

def PermitJoining.tryFrom (v : Nat) : Res PermitJoining :=
  if v = 0x00 then .ok .Yes
  else if v = 0x01 then .ok .No
  else if v = 0x02 then .ok .Unknown
  else .error (.unsupportedValue v)

/-! ## `network/commands/link_status.rs` -/

/-- `LinkStatusEntry` (link_status.rs lines 9-14): a network address plus
incoming and outgoing link costs (Rust `u8` fields). -/
structure LinkStatusEntry where
  address : NetworkAddress
  incoming_cost : Nat
  outgoing_cost : Nat
deriving DecidableEq, Repr

/-- `LinkStatusEntry::pack` (link_status.rs lines 17-26): requires a buffer of
exactly 3 bytes, asserts both costs below 16, packs the address into bytes
0..2 and `incoming_cost | outgoing_cost << 4` into byte 2. -/
def LinkStatusEntry.pack (e : LinkStatusEntry) (data : List Byte) : Res (List Byte) :=
  if data.length ≠ 3 then .error .wrongNumberOfBytes
  else if e.incoming_cost < 16 then
    if e.outgoing_cost < 16 then
      (slice data 0 2).bind fun s =>
        (NetworkAddress.pack e.address s).bind fun ab =>
          .ok (writeSlice (writeSlice data 0 ab) 2
            [toByte (e.incoming_cost ||| (e.outgoing_cost <<< 4) % 256)])
    else .panic
  else .panic

/-- `LinkStatusEntry::unpack` (link_status.rs lines 28-40): requires exactly 3
bytes, decodes the address from bytes 0..2, the incoming cost from bits 0-2 of
byte 2 and the outgoing cost from bits 4-6 of byte 2. -/
def LinkStatusEntry.unpack : List Byte → Res LinkStatusEntry
  | [b0, b1, b2] =>
    (NetworkAddress.unpack [b0, b1]).bind fun address =>
      .ok ⟨address, b2.val &&& 0x07, (b2.val &&& 0x70) >>> 4⟩
  | _ => .error .wrongNumberOfBytes

/-- `LinkStatus` (link_status.rs lines 47-52). -/
structure LinkStatus where
  first_frame : Bool
  last_frame : Bool
  entries : List LinkStatusEntry
deriving DecidableEq, Repr

/-- The entry-packing loop of `LinkStatus::pack` (link_status.rs lines 65-68):
packs each entry into `data[offset..offset + 3]`, advancing the offset. -/
def packEntriesAux : List LinkStatusEntry → List Byte → Nat → Res (List Byte × Nat)
  | [], data, offset => .ok (data, offset)
  | e :: rest, data, offset =>
    (slice data offset (offset + 3)).bind fun s =>
      (LinkStatusEntry.pack e s).bind fun packed =>
        packEntriesAux rest (writeSlice data offset packed) (offset + 3)

/-- `LinkStatus::pack` (link_status.rs lines 55-70): asserts fewer than 32
entries, requires the buffer to hold `1 + 3 * entries.len()` bytes, writes the
count and the first/last-frame flag bits into byte 0 and the entries from
offset 1 on, returning the mutated buffer and the final offset. -/
def LinkStatus.pack (ls : LinkStatus) (data : List Byte) : Res (List Byte × Nat) :=
  if ls.entries.length < 32 then
    if data.length < 1 + ls.entries.length * 3 then .error .wrongNumberOfBytes
    else
      packEntriesAux ls.entries
        (writeSlice data 0
          [toByte ((ls.entries.length % 256)
            ||| (if ls.first_frame then 0x20 else 0)
            ||| (if ls.last_frame then 0x40 else 0))]) 1
  else .panic

/-- The entry-decoding loop of `LinkStatus::unpack` (link_status.rs lines
84-88): decodes `n` entries from `data[offset..offset + 3]`, advancing the
offset by 3 each time. -/
def unpackEntriesAux (data : List Byte) : Nat → Nat → Res (List LinkStatusEntry × Nat)
  | 0, offset => .ok ([], offset)
  | n + 1, offset =>
    (slice data offset (offset + 3)).bind fun s =>
      (LinkStatusEntry.unpack s).bind fun e =>
        (unpackEntriesAux data n (offset + 3)).bind fun res =>
          .ok (e :: res.1, res.2)

/-- `LinkStatus::unpack` (link_status.rs lines 72-98): rejects an empty buffer,
reads the entry count from bits 0-4 of byte 0, checks the buffer length, reads
the first/last-frame flags from bits 5 and 6 of byte 0, then decodes the
entries from offset 1 on. -/
def LinkStatus.unpack (data : List Byte) : Res (LinkStatus × Nat) :=
  if data.length = 0 then .error .wrongNumberOfBytes
  else
    (byteAt data 0).bind fun b0 =>
      let num_entries := b0.val &&& 0x1f
      if data.length < 1 + num_entries * 3 then .error .wrongNumberOfBytes
      else
        let first_frame := b0.val &&& 0x20 == 0x20
        let last_frame := b0.val &&& 0x40 == 0x40
        (unpackEntriesAux data num_entries 1).bind fun res =>
          .ok (⟨first_frame, last_frame, res.1⟩, res.2)

/-! ## `device_profile/link_quality.rs` -/

/-- `Neighbor` (link_quality.rs lines 43-53). -/
structure Neighbor where
  pan_identifier : ExtendedAddress
  extended_address : ExtendedAddress
  network_address : NetworkAddress
  device_type : DeviceType
  rx_idle : RxOnWhenIdle
  relationship : Relationship
  permit_joining : PermitJoining
  depth : Nat
  link_quality : Nat
deriving DecidableEq, Repr

/-- `Neighbor::unpack` (link_quality.rs lines 60-85): requires at least 22
bytes, decodes the PAN identifier from bytes 0..8, the extended address from
bytes 8..16, the network address from bytes 16..18, the bit-packed
classification fields from bytes 18 and 19, the depth and link quality from
bytes 20 and 21, and consumes 22 bytes. -/
def Neighbor.unpack (data : List Byte) : Res (Neighbor × Nat) :=
  if data.length < 22 then .error .wrongNumberOfBytes
  else
    (slice data 0 8).bind fun s0 =>
      (ExtendedAddress.unpack s0).bind fun pan_identifier =>
        (slice data 8 16).bind fun s1 =>
          (ExtendedAddress.unpack s1).bind fun extended_address =>
            (slice data 16 18).bind fun s2 =>
              (NetworkAddress.unpack s2).bind fun network_address =>
                (byteAt data 18).bind fun b18 =>
                  (DeviceType.tryFrom (b18.val &&& 0x03)).bind fun device_type =>
                    (RxOnWhenIdle.tryFrom ((b18.val &&& 0x0c) >>> 2)).bind fun rx_idle =>
                      (Relationship.tryFrom ((b18.val &&& 0x70) >>> 4)).bind fun relationship =>
                        (byteAt data 19).bind fun b19 =>
                          (PermitJoining.tryFrom ((b19.val &&& 0xc0) >>> 6)).bind fun permit_joining =>
                            (byteAt data 20).bind fun b20 =>
                              (byteAt data 21).bind fun b21 =>
                                .ok (⟨pan_identifier, extended_address, network_address,
                                  device_type, rx_idle, relationship, permit_joining,
                                  b20.val, b21.val⟩, 22)

/-- `ManagementLinkQualityIndicatorResponse` (link_quality.rs lines 91-96). -/
structure ManagementLinkQualityIndicatorResponse where
  status : Status
  neighbors_total : Nat
  index : Nat
  neighbors : List Neighbor
deriving DecidableEq, Repr

/-- The neighbor-decoding loop of
`ManagementLinkQualityIndicatorResponse::unpack` (link_quality.rs lines
116-122): decodes `n` neighbors, each from `data[offset..]`, advancing the
offset by each decode's consumed length. -/
def unpackNeighborsAux (data : List Byte) : Nat → Nat → Res (List Neighbor × Nat)
  | 0, offset => .ok ([], offset)
  | n + 1, offset =>
    (sliceFrom data offset).bind fun s =>
      (Neighbor.unpack s).bind fun nu =>
        (unpackNeighborsAux data n (offset + nu.2)).bind fun res =>
          .ok (nu.1 :: res.1, res.2)

/-- `ManagementLinkQualityIndicatorResponse::unpack` (link_quality.rs lines
105-132): requires at least 4 bytes, decodes the status from byte 0, the
neighbor total from byte 1, the index from byte 2 and the entry count from
byte 3, checks the buffer holds `4 + count * 22` bytes, then decodes the
neighbors from offset 4 on. -/
def ManagementLinkQualityIndicatorResponse.unpack (data : List Byte) :
    Res (ManagementLinkQualityIndicatorResponse × Nat) :=
  if data.length < 4 then .error .wrongNumberOfBytes
  else
    (byteAt data 0).bind fun b0 =>
      (Status.tryFrom b0.val).bind fun status =>
        (byteAt data 1).bind fun b1 =>
          (byteAt data 2).bind fun b2 =>
            (byteAt data 3).bind fun b3 =>
              let num_entries := b3.val
              if data.length < 4 + num_entries * 22 then .error .wrongNumberOfBytes
              else
                (unpackNeighborsAux data num_entries 4).bind fun res =>
                  .ok (⟨status, b1.val, b2.val, res.1⟩, res.2)

/-! ## Byte-level bit facts -/

theorem and7_le (b : Byte) : b.val &&& 0x07 ≤ 7 := by
  revert b; decide

theorem and70_shift_le (b : Byte) : (b.val &&& 0x70) >>> 4 ≤ 7 := by
  revert b; decide

theorem cost_byte_repack (b : Byte) :
    (b.val &&& 0x07) ||| ((b.val &&& 0x70) >>> 4 <<< 4) % 256 = b.val &&& 0x77 := by
  revert b; decide

theorem and1f_le (b : Byte) : b.val &&& 0x1f ≤ 31 := by
  revert b; decide

theorem and20_beq_iff (b : Byte) :
    ((b.val &&& 0x20 == 0x20) = true ↔ b.val &&& 0x20 ≠ 0) := by
  revert b; decide

theorem and40_beq_iff (b : Byte) :
    ((b.val &&& 0x40 == 0x40) = true ↔ b.val &&& 0x40 ≠ 0) := by
  revert b; decide

theorem mask_shift_rx (b : Byte) : (b.val &&& 0x0c) >>> 2 = b.val >>> 2 &&& 0x03 := by
  revert b; decide

theorem mask_shift_rel (b : Byte) : (b.val &&& 0x70) >>> 4 = b.val >>> 4 &&& 0x07 := by
  revert b; decide

theorem mask_shift_pj (b : Byte) : (b.val &&& 0xc0) >>> 6 = b.val >>> 6 &&& 0x03 := by
  revert b; decide

theorem cost_pack_unpack (ic oc : Nat) (hic : ic ≤ 7) (hoc : oc ≤ 7) :
    (ic ||| (oc <<< 4) % 256) % 256 &&& 0x07 = ic ∧
      ((ic ||| (oc <<< 4) % 256) % 256 &&& 0x70) >>> 4 = oc := by
  interval_cases ic <;> interval_cases oc <;> decide

/-! ## Panic-freedom helpers -/

theorem slice_ne_panic {data : List Byte} {lo hi : Nat} (h1 : lo ≤ hi)
    (h2 : hi ≤ data.length) : slice data lo hi ≠ .panic := by
  rw [slice_eq_ok h1 h2]; simp

theorem sliceFrom_ne_panic {data : List Byte} {lo : Nat} (h : lo ≤ data.length) :
    sliceFrom data lo ≠ .panic := by
  rw [sliceFrom_eq_ok h]; simp

theorem byteAt_ne_panic {data : List Byte} {i : Nat} (h : i < data.length) :
    byteAt data i ≠ .panic := by
  rw [byteAt_eq_ok h]; simp

theorem networkAddress_unpack_ne_panic (l : List Byte) :
    NetworkAddress.unpack l ≠ .panic := by
  rcases l with _ | ⟨b0, _ | ⟨b1, _ | ⟨b2, t⟩⟩⟩ <;> simp [NetworkAddress.unpack]

theorem networkAddress_pack_ne_panic (a : NetworkAddress) (l : List Byte) :
    NetworkAddress.pack a l ≠ .panic := by
  unfold NetworkAddress.pack
  split <;> simp

theorem extendedAddress_unpack_ne_panic (l : List Byte) :
    ExtendedAddress.unpack l ≠ .panic := by
  unfold ExtendedAddress.unpack
  split <;> simp

theorem status_tryFrom_ne_panic (v : Nat) : Status.tryFrom v ≠ .panic := by
  unfold Status.tryFrom
  split <;> simp

theorem deviceType_tryFrom_ne_panic (v : Nat) : DeviceType.tryFrom v ≠ .panic := by
  unfold DeviceType.tryFrom
  split <;> [skip; split] <;> [skip; skip; split] <;> [skip; skip; skip; split] <;> simp

theorem rxOnWhenIdle_tryFrom_ne_panic (v : Nat) : RxOnWhenIdle.tryFrom v ≠ .panic := by
  unfold RxOnWhenIdle.tryFrom
  split <;> [skip; split] <;> [skip; skip; split] <;> simp

theorem relationship_tryFrom_ne_panic (v : Nat) : Relationship.tryFrom v ≠ .panic := by
  unfold Relationship.tryFrom
  split
  · simp
  · split
    · simp
    · split
      · simp
      · split
        · simp
        · split <;> simp

theorem permitJoining_tryFrom_ne_panic (v : Nat) : PermitJoining.tryFrom v ≠ .panic := by
  unfold PermitJoining.tryFrom
  split <;> [skip; split] <;> [skip; skip; split] <;> simp

theorem linkStatusEntry_unpack_ne_panic (l : List Byte) :
    LinkStatusEntry.unpack l ≠ .panic := by
  rcases l with _ | ⟨b0, _ | ⟨b1, _ | ⟨b2, _ | ⟨b3, t⟩⟩⟩⟩ <;>
    simp [LinkStatusEntry.unpack, NetworkAddress.unpack, Res.bind]

theorem unpackEntriesAux_ne_panic (data : List Byte) :
    ∀ (n offset : Nat), offset + n * 3 ≤ data.length →
      unpackEntriesAux data n offset ≠ .panic := by
  intro n
  induction n with
  | zero => intro offset h; simp [unpackEntriesAux]
  | succ m ih =>
    intro offset h
    unfold unpackEntriesAux
    refine Res.bind_ne_panic (slice_ne_panic (by omega) (by omega)) fun s => ?_
    refine Res.bind_ne_panic (linkStatusEntry_unpack_ne_panic s) fun e => ?_
    refine Res.bind_ne_panic (ih (offset + 3) (by omega)) fun res => ?_
    simp

theorem linkStatus_unpack_ne_panic (data : List Byte) :
    LinkStatus.unpack data ≠ .panic := by
  unfold LinkStatus.unpack
  split
  · simp
  · rename_i hne
    refine Res.bind_ne_panic (byteAt_ne_panic (by omega)) fun b0 => ?_
    simp only
    split
    · simp
    · rename_i hlen
      refine Res.bind_ne_panic (unpackEntriesAux_ne_panic data _ 1 (by omega)) fun res => ?_
      simp

theorem neighbor_unpack_ne_panic (data : List Byte) :
    Neighbor.unpack data ≠ .panic := by
  unfold Neighbor.unpack
  split
  · simp
  · rename_i hlen
    push_neg at hlen
    refine Res.bind_ne_panic (slice_ne_panic (by omega) (by omega)) fun s0 => ?_
    refine Res.bind_ne_panic (extendedAddress_unpack_ne_panic s0) fun pan => ?_
    refine Res.bind_ne_panic (slice_ne_panic (by omega) (by omega)) fun s1 => ?_
    refine Res.bind_ne_panic (extendedAddress_unpack_ne_panic s1) fun ext => ?_
    refine Res.bind_ne_panic (slice_ne_panic (by omega) (by omega)) fun s2 => ?_
    refine Res.bind_ne_panic (networkAddress_unpack_ne_panic s2) fun net => ?_
    refine Res.bind_ne_panic (byteAt_ne_panic (by omega)) fun b18 => ?_
    refine Res.bind_ne_panic (deviceType_tryFrom_ne_panic _) fun dt => ?_
    refine Res.bind_ne_panic (rxOnWhenIdle_tryFrom_ne_panic _) fun rx => ?_
    refine Res.bind_ne_panic (relationship_tryFrom_ne_panic _) fun rel => ?_
    refine Res.bind_ne_panic (byteAt_ne_panic (by omega)) fun b19 => ?_
    refine Res.bind_ne_panic (permitJoining_tryFrom_ne_panic _) fun pj => ?_
    refine Res.bind_ne_panic (byteAt_ne_panic (by omega)) fun b20 => ?_
    refine Res.bind_ne_panic (byteAt_ne_panic (by omega)) fun b21 => ?_
    simp

/-- A successful `Neighbor::unpack` consumes exactly 22 bytes. -/
theorem neighbor_unpack_used {data : List Byte} {p : Neighbor × Nat}
    (h : Neighbor.unpack data = .ok p) : p.2 = 22 := by
  unfold Neighbor.unpack at h
  split at h
  · simp at h
  · simp only [Res.bind_eq_ok, Res.ok.injEq] at h
    obtain ⟨s0, -, pan, -, s1, -, ext, -, s2, -, net, -, b18, -, dt, -, rx, -, rel, -,
      b19, -, pj, -, b20, -, b21, -, hp⟩ := h
    simp [← hp]

theorem unpackNeighborsAux_ne_panic (data : List Byte) :
    ∀ (n offset : Nat), offset + n * 22 ≤ data.length →
      unpackNeighborsAux data n offset ≠ .panic := by
  intro n
  induction n with
  | zero => intro offset h; simp [unpackNeighborsAux]
  | succ m ih =>
    intro offset h
    unfold unpackNeighborsAux
    refine Res.bind_ne_panic (sliceFrom_ne_panic (by omega)) fun s => ?_
    refine Res.bind_ne_panic_of_ok (neighbor_unpack_ne_panic s) fun nu hnu => ?_
    have h22 := neighbor_unpack_used hnu
    refine Res.bind_ne_panic (ih (offset + nu.2) (by omega)) fun res => by simp

theorem mlqi_unpack_ne_panic (data : List Byte) :
    ManagementLinkQualityIndicatorResponse.unpack data ≠ .panic := by
  unfold ManagementLinkQualityIndicatorResponse.unpack
  split
  · simp
  · rename_i hlen
    push_neg at hlen
    refine Res.bind_ne_panic (byteAt_ne_panic (by omega)) fun b0 => ?_
    refine Res.bind_ne_panic (status_tryFrom_ne_panic _) fun st => ?_
    refine Res.bind_ne_panic (byteAt_ne_panic (by omega)) fun b1 => ?_
    refine Res.bind_ne_panic (byteAt_ne_panic (by omega)) fun b2 => ?_
    refine Res.bind_ne_panic (byteAt_ne_panic (by omega)) fun b3 => ?_
    simp only
    split
    · simp
    · rename_i hcnt
      refine Res.bind_ne_panic (unpackNeighborsAux_ne_panic data _ 4 (by omega)) fun res => ?_
      simp

/-- The 3 bytes a successful `LinkStatusEntry::pack` writes. -/
def entryWire (e : LinkStatusEntry) : List Byte :=
  [toByte e.address.value.val, toByte (e.address.value.val / 256),
   toByte (e.incoming_cost ||| (e.outgoing_cost <<< 4) % 256)]

theorem entry_pack_eq {e : LinkStatusEntry} {s : List Byte} (h3 : s.length = 3)
    (hic : e.incoming_cost < 16) (hoc : e.outgoing_cost < 16) :
    LinkStatusEntry.pack e s = .ok (entryWire e) := by
  rcases s with _ | ⟨x0, _ | ⟨x1, _ | ⟨x2, _ | ⟨x3, t⟩⟩⟩⟩ <;> simp at h3
  simp only [LinkStatusEntry.pack]
  rw [if_neg (by simp), if_pos hic, if_pos hoc]
  rfl

/-! ## Claims -/

/-- C3: For every input buffer of any length and content, the decode
operations `Neighbor::unpack`, `ManagementLinkQualityIndicatorResponse::unpack`,
`LinkStatusEntry::unpack` and `LinkStatus::unpack` are total: each returns a
value or a structured error and never panics — in the model, a Rust panic
(failed assertion, out-of-bounds index or slice) is the `Res.panic` outcome,
so panic-freedom also states that every byte index and slice taken is within
the buffer's bounds, the count-driven reads being guarded by the length checks
that precede them. -/
theorem c3_unpack_operations_total (data : List Byte) :
    Neighbor.unpack data ≠ .panic ∧
    ManagementLinkQualityIndicatorResponse.unpack data ≠ .panic ∧
    LinkStatusEntry.unpack data ≠ .panic ∧
    LinkStatus.unpack data ≠ .panic :=
  ⟨neighbor_unpack_ne_panic data, mlqi_unpack_ne_panic data,
    linkStatusEntry_unpack_ne_panic data, linkStatus_unpack_ne_panic data⟩

/-- C8: For each of the closed enumerations `DeviceType`, `RxOnWhenIdle`,
`Relationship` and `PermitJoining`, decoding any integer value outside the
enumeration's declared integer-to-variant mapping (the mappings cover
`0..=3`, `0..=2`, `0..=4` and `0..=2` respectively) fails with the
out-of-range error carrying that exact rejected value — in particular no such
value is mapped to any default or fallback variant. -/
theorem c8_enum_decode_rejects_unmapped :
    (∀ v : Nat, 3 < v → DeviceType.tryFrom v = .error (.unsupportedValue v)) ∧
    (∀ v : Nat, 2 < v → RxOnWhenIdle.tryFrom v = .error (.unsupportedValue v)) ∧
    (∀ v : Nat, 4 < v → Relationship.tryFrom v = .error (.unsupportedValue v)) ∧
    (∀ v : Nat, 2 < v → PermitJoining.tryFrom v = .error (.unsupportedValue v)) := by
  refine ⟨fun v hv => ?_, fun v hv => ?_, fun v hv => ?_, fun v hv => ?_⟩
  · have h0 : v ≠ 0 := by omega
    have h1 : v ≠ 1 := by omega
    have h2 : v ≠ 2 := by omega
    have h3 : v ≠ 3 := by omega
    simp [DeviceType.tryFrom, h0, h1, h2, h3]
  · have h0 : v ≠ 0 := by omega
    have h1 : v ≠ 1 := by omega
    have h2 : v ≠ 2 := by omega
    simp [RxOnWhenIdle.tryFrom, h0, h1, h2]
  · have h0 : v ≠ 0 := by omega
    have h1 : v ≠ 1 := by omega
    have h2 : v ≠ 2 := by omega
    have h3 : v ≠ 3 := by omega
    have h4 : v ≠ 4 := by omega
    simp [Relationship.tryFrom, h0, h1, h2, h3, h4]
  · have h0 : v ≠ 0 := by omega
    have h1 : v ≠ 1 := by omega
    have h2 : v ≠ 2 := by omega
    simp [PermitJoining.tryFrom, h0, h1, h2]

theorem c8_enum_decode_rejects_unmapped_witness :
    DeviceType.tryFrom 4 = .error (.unsupportedValue 4) ∧
    RxOnWhenIdle.tryFrom 3 = .error (.unsupportedValue 3) ∧
    Relationship.tryFrom 7 = .error (.unsupportedValue 7) ∧
    PermitJoining.tryFrom 3 = .error (.unsupportedValue 3) :=
  ⟨c8_enum_decode_rejects_unmapped.1 4 (by decide),
    c8_enum_decode_rejects_unmapped.2.1 3 (by decide),
    c8_enum_decode_rejects_unmapped.2.2.1 7 (by decide),
    c8_enum_decode_rejects_unmapped.2.2.2 3 (by decide)⟩

/-- C1: For every `LinkStatusEntry` whose incoming and outgoing costs are both
in `[0, 7]` and whose address is any network address, packing the entry into a
3-byte buffer succeeds, and unpacking the produced bytes succeeds and returns
the original entry. -/
theorem c1_entry_pack_unpack_roundtrip
    (e : LinkStatusEntry) (buf : List Byte)
    (hic : e.incoming_cost ≤ 7) (hoc : e.outgoing_cost ≤ 7) (hlen : buf.length = 3) :
    ∃ out, LinkStatusEntry.pack e buf = .ok out ∧
      LinkStatusEntry.unpack out = .ok e := by
  obtain ⟨⟨⟨v, hv⟩⟩, ic, oc⟩ := e
  simp only at hic hoc
  refine ⟨entryWire ⟨⟨⟨v, hv⟩⟩, ic, oc⟩,
    entry_pack_eq hlen (by show ic < 16; omega) (by show oc < 16; omega), ?_⟩
  simp only [entryWire, LinkStatusEntry.unpack, NetworkAddress.unpack, Res.bind_ok,
    toByte, Res.ok.injEq, LinkStatusEntry.mk.injEq, NetworkAddress.mk.injEq, Fin.mk.injEq]
  exact ⟨by omega, (cost_pack_unpack ic oc hic hoc).1, (cost_pack_unpack ic oc hic hoc).2⟩

theorem c1_entry_pack_unpack_roundtrip_witness :
    ∃ out, LinkStatusEntry.pack ⟨⟨⟨0x1234, by decide⟩⟩, 3, 5⟩
        [toByte 0, toByte 0, toByte 0] = .ok out ∧
      LinkStatusEntry.unpack out = .ok ⟨⟨⟨0x1234, by decide⟩⟩, 3, 5⟩ :=
  c1_entry_pack_unpack_roundtrip _ _ (by decide) (by decide) (by decide)

/-- C2 counterexample: the 3-byte buffer `00 00 88` decodes successfully, but
re-encoding the decoded entry yields `00 00 00`, not the original bytes: bits
3 and 7 of the cost byte are discarded by decode and re-encoded as zero, so
the cost byte is not reproduced bit for bit. -/
theorem c2_reserved_bits_counterexample :
    LinkStatusEntry.unpack [toByte 0x00, toByte 0x00, toByte 0x88] =
      .ok ⟨⟨⟨0, by decide⟩⟩, 0, 0⟩ ∧
    LinkStatusEntry.pack ⟨⟨⟨0, by decide⟩⟩, 0, 0⟩
        [toByte 0x00, toByte 0x00, toByte 0x88] =
      .ok [toByte 0x00, toByte 0x00, toByte 0x00] ∧
    ([toByte 0x00, toByte 0x00, toByte 0x00] : List Byte) ≠
      [toByte 0x00, toByte 0x00, toByte 0x88] := by
  decide

/-- C2 (amended): For every 3-byte buffer on which `LinkStatusEntry::unpack`
succeeds, packing the decoded entry into a 3-byte buffer succeeds and
reproduces bytes 0 and 1 exactly and byte 2 with its reserved bits 3 and 7
cleared (`byte2 & 0x77`); in particular the original 3 bytes are reproduced
bit for bit exactly when bits 3 and 7 of byte 2 are zero. -/
theorem c2_unpack_pack_reproduces_up_to_reserved_bits
    (b0 b1 b2 : Byte) (buf : List Byte) (hlen : buf.length = 3) :
    ∃ e, LinkStatusEntry.unpack [b0, b1, b2] = .ok e ∧
      LinkStatusEntry.pack e buf = .ok [b0, b1, toByte (b2.val &&& 0x77)] := by
  have h0 := b0.isLt
  have h1 := b1.isLt
  refine ⟨⟨⟨⟨b0.val + 256 * b1.val, by omega⟩⟩, b2.val &&& 0x07,
    (b2.val &&& 0x70) >>> 4⟩, rfl, ?_⟩
  rw [entry_pack_eq hlen
    (by show b2.val &&& 0x07 < 16; have := and7_le b2; omega)
    (by show (b2.val &&& 0x70) >>> 4 < 16; have := and70_shift_le b2; omega)]
  have hv0 : toByte (b0.val + 256 * b1.val) = b0 := by
    apply Fin.ext; simp only [toByte]; omega
  have hv1 : toByte ((b0.val + 256 * b1.val) / 256) = b1 := by
    apply Fin.ext; simp only [toByte]; omega
  simp only [entryWire, hv0, hv1, cost_byte_repack b2]

/-- C2 (amended) witness at buffer `12 34 88`. -/
theorem c2_unpack_pack_reproduces_up_to_reserved_bits_witness :
    ∃ e, LinkStatusEntry.unpack [toByte 0x12, toByte 0x34, toByte 0x88] = .ok e ∧
      LinkStatusEntry.pack e [toByte 0, toByte 0, toByte 0] =
        .ok [toByte 0x12, toByte 0x34, toByte 0x00] := by
  obtain ⟨e, h1, h2⟩ := c2_unpack_pack_reproduces_up_to_reserved_bits
    (toByte 0x12) (toByte 0x34) (toByte 0x88) [toByte 0, toByte 0, toByte 0] (by decide)
  exact ⟨e, h1, by rw [h2]; decide⟩

/-- C10: Every entry produced by a successful `LinkStatusEntry::unpack`
satisfies `incoming_cost ≤ 7` and `outgoing_cost ≤ 7`, so re-encoding such an
entry never trips the encode-side `assert!(cost < 16)` checks (never panics,
for any target buffer). -/
theorem c10_decoded_entry_costs_in_range
    (data : List Byte) (e : LinkStatusEntry)
    (h : LinkStatusEntry.unpack data = .ok e) :
    e.incoming_cost ≤ 7 ∧ e.outgoing_cost ≤ 7 ∧
      ∀ buf : List Byte, LinkStatusEntry.pack e buf ≠ .panic := by
  rcases data with _ | ⟨b0, rest⟩
  · exact absurd h (by simp [LinkStatusEntry.unpack])
  rcases rest with _ | ⟨b1, rest⟩
  · exact absurd h (by simp [LinkStatusEntry.unpack])
  rcases rest with _ | ⟨b2, rest⟩
  · exact absurd h (by simp [LinkStatusEntry.unpack])
  rcases rest with _ | ⟨b3, rest⟩
  · simp only [LinkStatusEntry.unpack, NetworkAddress.unpack, Res.bind_ok,
      Res.ok.injEq] at h
    subst h
    refine ⟨and7_le b2, and70_shift_le b2, fun buf => ?_⟩
    by_cases hb : buf.length = 3
    · rw [entry_pack_eq hb
        (by show b2.val &&& 0x07 < 16; have := and7_le b2; omega)
        (by show (b2.val &&& 0x70) >>> 4 < 16; have := and70_shift_le b2; omega)]
      simp
    · simp [LinkStatusEntry.pack, hb]
  · exact absurd h (by simp [LinkStatusEntry.unpack])

theorem c10_decoded_entry_costs_in_range_witness :
    (2 : Nat) ≤ 7 ∧ (1 : Nat) ≤ 7 ∧
      LinkStatusEntry.pack ⟨⟨⟨0, by decide⟩⟩, 2, 1⟩ [toByte 9] ≠ .panic :=
  ⟨(c10_decoded_entry_costs_in_range [toByte 0, toByte 0, toByte 0x12]
      ⟨⟨⟨0, by decide⟩⟩, 2, 1⟩ (by decide)).1,
   (c10_decoded_entry_costs_in_range [toByte 0, toByte 0, toByte 0x12]
      ⟨⟨⟨0, by decide⟩⟩, 2, 1⟩ (by decide)).2.1,
   (c10_decoded_entry_costs_in_range [toByte 0, toByte 0, toByte 0x12]
      ⟨⟨⟨0, by decide⟩⟩, 2, 1⟩ (by decide)).2.2 [toByte 9]⟩

theorem entryWire_length (e : LinkStatusEntry) : (entryWire e).length = 3 := rfl

theorem writeSlice_length {data bs : List Byte} {offset : Nat}
    (h : offset + bs.length ≤ data.length) :
    (writeSlice data offset bs).length = data.length := by
  simp only [writeSlice, List.length_append, List.length_take, List.length_drop]
  omega

theorem writeSlice_take {data bs : List Byte} {offset : Nat}
    (h : offset + bs.length ≤ data.length) :
    (writeSlice data offset bs).take (offset + bs.length) = data.take offset ++ bs := by
  have hAB : (data.take offset ++ bs).length = offset + bs.length := by
    simp only [List.length_append, List.length_take]
    omega
  simp only [writeSlice]
  exact List.take_left' hAB

theorem writeSlice_drop {data bs : List Byte} {offset k : Nat}
    (h : offset + bs.length ≤ data.length) (hk : offset + bs.length ≤ k) :
    (writeSlice data offset bs).drop k = data.drop k := by
  have hAB : (data.take offset ++ bs).length = offset + bs.length := by
    simp only [List.length_append, List.length_take]
    omega
  simp only [writeSlice]
  rw [List.drop_append_eq_append_drop]
  rw [List.drop_of_length_le (le_trans (le_of_eq hAB) hk)]
  rw [hAB, List.drop_drop]
  rw [show offset + bs.length + (k - (offset + bs.length)) = k from by omega]
  simp

theorem packEntriesAux_spec :
    ∀ (es : List LinkStatusEntry) (data : List Byte) (offset : Nat),
      (∀ e ∈ es, e.incoming_cost < 16 ∧ e.outgoing_cost < 16) →
      offset + es.length * 3 ≤ data.length →
      packEntriesAux es data offset =
        .ok (data.take offset ++ es.flatMap entryWire ++
            data.drop (offset + es.length * 3),
          offset + es.length * 3) := by
  intro es
  induction es with
  | nil =>
    intro data offset hcost hlen
    simp [packEntriesAux, List.take_append_drop]
  | cons e es ih =>
    intro data offset hcost hlen
    simp only [List.length_cons] at hlen
    have hc := hcost e (by simp)
    have h3 : ((data.drop offset).take 3).length = 3 := by
      simp only [List.length_take, List.length_drop]
      omega
    unfold packEntriesAux
    rw [slice_eq_ok (by omega) (by omega), Nat.add_sub_cancel_left]
    simp only [Res.bind_ok]
    rw [entry_pack_eq h3 hc.1 hc.2]
    simp only [Res.bind_ok]
    have hwlen : offset + (entryWire e).length ≤ data.length := by
      rw [entryWire_length]; omega
    rw [ih (writeSlice data offset (entryWire e)) (offset + 3)
      (fun e' he' => hcost e' (by simp [he']))
      (by rw [writeSlice_length hwlen]; omega)]
    have ht := writeSlice_take hwlen
    rw [entryWire_length] at ht
    have hd := writeSlice_drop (k := offset + 3 + es.length * 3) hwlen
      (by rw [entryWire_length]; omega)
    rw [ht, hd]
    have harith : offset + 3 + es.length * 3 = offset + (es.length + 1) * 3 := by ring
    rw [harith]
    simp [List.append_assoc]

/-- C6 counterexample: with fewer than 32 entries and a buffer exactly large
enough, `LinkStatus::pack` does not return at all when an entry's cost does not
fit the encode-side assertion: an entry with `incoming_cost = 16` makes the
call panic instead of writing the buffer and returning `1 + 3 * entries.len()`. -/
theorem c6_cost_assert_counterexample :
    (1 : Nat) < 32 ∧
    (List.replicate 4 (toByte 0) : List Byte).length = 1 + 3 * 1 ∧
    LinkStatus.pack ⟨false, false, [⟨⟨⟨0, by decide⟩⟩, 16, 0⟩]⟩
      (List.replicate 4 (toByte 0)) = .panic := by
  decide

/-- C6 (amended): For every `LinkStatus` with fewer than 32 entries and every
buffer: a buffer shorter than `1 + 3 * entries.len()` makes `LinkStatus::pack`
fail with the length error; otherwise, provided additionally that every
entry's costs are below 16 (the per-entry encode assertion), it writes byte 0
as the entry count ORed with the first-frame bit (0x20) when `first_frame` and
the last-frame bit (0x40) when `last_frame`, encodes each entry sequentially
in 3-byte slots from offset 1, leaves the bytes past the written region
untouched, and returns `1 + 3 * entries.len()` bytes written. -/
theorem c6_link_status_pack_spec (ls : LinkStatus) (data : List Byte)
    (h32 : ls.entries.length < 32) :
    (data.length < 1 + 3 * ls.entries.length →
      LinkStatus.pack ls data = .error .wrongNumberOfBytes) ∧
    ((∀ e ∈ ls.entries, e.incoming_cost < 16 ∧ e.outgoing_cost < 16) →
      1 + 3 * ls.entries.length ≤ data.length →
      LinkStatus.pack ls data =
        .ok (toByte (ls.entries.length
              ||| (if ls.first_frame then 0x20 else 0)
              ||| (if ls.last_frame then 0x40 else 0)) ::
            (ls.entries.flatMap entryWire ++ data.drop (1 + 3 * ls.entries.length)),
          1 + 3 * ls.entries.length)) := by
  constructor
  · intro hshort
    unfold LinkStatus.pack
    rw [if_pos h32, if_pos (by omega)]
  · intro hcost hlen
    unfold LinkStatus.pack
    rw [if_pos h32, if_neg (by omega)]
    rw [Nat.mod_eq_of_lt (show ls.entries.length < 256 by omega)]
    have hw : writeSlice data 0
        [toByte (ls.entries.length
          ||| (if ls.first_frame then 0x20 else 0)
          ||| (if ls.last_frame then 0x40 else 0))] =
        toByte (ls.entries.length
          ||| (if ls.first_frame then 0x20 else 0)
          ||| (if ls.last_frame then 0x40 else 0)) :: data.drop 1 := by
      simp [writeSlice]
    rw [hw]
    rw [packEntriesAux_spec ls.entries _ 1 hcost
      (by simp only [List.length_cons, List.length_drop]; omega)]
    have ht : (toByte (ls.entries.length
        ||| (if ls.first_frame then 0x20 else 0)
        ||| (if ls.last_frame then 0x40 else 0)) :: data.drop 1).take 1 =
        [toByte (ls.entries.length
          ||| (if ls.first_frame then 0x20 else 0)
          ||| (if ls.last_frame then 0x40 else 0))] := rfl
    have hd : (toByte (ls.entries.length
        ||| (if ls.first_frame then 0x20 else 0)
        ||| (if ls.last_frame then 0x40 else 0)) :: data.drop 1).drop
          (1 + ls.entries.length * 3) =
        data.drop (1 + 3 * ls.entries.length) := by
      rw [show 1 + ls.entries.length * 3 = ls.entries.length * 3 + 1 from by ring,
        List.drop_succ_cons, List.drop_drop]
      rw [show 1 + ls.entries.length * 3 = 1 + 3 * ls.entries.length from by ring]
    rw [ht, hd]
    rw [show 1 + ls.entries.length * 3 = 1 + 3 * ls.entries.length from by ring]
    simp

theorem c6_link_status_pack_spec_witness :
    LinkStatus.pack ⟨true, true, [⟨⟨⟨0x2211, by decide⟩⟩, 7, 2⟩]⟩
        (List.replicate 4 (toByte 0)) =
      .ok ([toByte 0x61, toByte 0x11, toByte 0x22, toByte 0x27], 4) ∧
    LinkStatus.pack ⟨true, true, [⟨⟨⟨0x2211, by decide⟩⟩, 7, 2⟩]⟩
        (List.replicate 3 (toByte 0)) =
      .error .wrongNumberOfBytes := by
  constructor
  · have h := (c6_link_status_pack_spec ⟨true, true, [⟨⟨⟨0x2211, by decide⟩⟩, 7, 2⟩]⟩
      (List.replicate 4 (toByte 0)) (by decide)).2 (by decide) (by decide)
    rw [h]
    decide
  · exact (c6_link_status_pack_spec ⟨true, true, [⟨⟨⟨0x2211, by decide⟩⟩, 7, 2⟩]⟩
      (List.replicate 3 (toByte 0)) (by decide)).1 (by decide)

theorem entry_unpack_of_len3 {s : List Byte} (h : s.length = 3) :
    ∃ e, LinkStatusEntry.unpack s = .ok e := by
  rcases s with _ | ⟨x0, _ | ⟨x1, _ | ⟨x2, _ | ⟨x3, t⟩⟩⟩⟩ <;> simp at h
  exact ⟨_, rfl⟩

theorem unpackEntriesAux_spec (data : List Byte) :
    ∀ (n offset : Nat), offset + n * 3 ≤ data.length →
      ∃ es, unpackEntriesAux data n offset = .ok (es, offset + n * 3) ∧
        es.length = n ∧
        ∀ (k : Nat) (hk : k < es.length),
          LinkStatusEntry.unpack ((data.drop (offset + 3 * k)).take 3) =
            .ok (es.get ⟨k, hk⟩) := by
  intro n
  induction n with
  | zero =>
    intro offset h
    exact ⟨[], by simp [unpackEntriesAux], rfl, by intro k hk; simp at hk⟩
  | succ m ih =>
    intro offset h
    obtain ⟨e, he⟩ := entry_unpack_of_len3 (s := (data.drop offset).take 3) (by
      simp only [List.length_take, List.length_drop]
      omega)
    obtain ⟨es, hes, hlen2, hget⟩ := ih (offset + 3) (by omega)
    refine ⟨e :: es, ?_, by simp [hlen2], ?_⟩
    · unfold unpackEntriesAux
      rw [slice_eq_ok (by omega) (by omega), Nat.add_sub_cancel_left]
      simp only [Res.bind_ok]
      rw [he]
      simp only [Res.bind_ok]
      rw [hes]
      simp only [Res.bind_ok]
      have harith : offset + 3 + m * 3 = offset + (m + 1) * 3 := by ring
      rw [harith]
    · intro k hk
      cases k with
      | zero =>
        simpa using he
      | succ j =>
        have hj : j < es.length := by
          simp only [List.length_cons] at hk
          omega
        have hstep := hget j hj
        have harith : offset + 3 * (j + 1) = offset + 3 + 3 * j := by ring
        rw [harith]
        simpa using hstep

/-- C5: For every non-empty buffer whose length is at least
`1 + 3 * (byte0 & 0x1f)`, `LinkStatus::unpack` succeeds, consuming
`1 + 3 * count` bytes with `count = byte0 & 0x1f`, yields
`first_frame = (byte0 & 0x20) != 0` and `last_frame = (byte0 & 0x40) != 0`,
and decodes exactly `count` entries sequentially in wire order from offset 1,
3 bytes each. -/
theorem c5_link_status_unpack_fields (b0 : Byte) (rest : List Byte)
    (hlen : (b0.val &&& 0x1f) * 3 ≤ rest.length) :
    ∃ ls, LinkStatus.unpack (b0 :: rest) = .ok (ls, 1 + 3 * (b0.val &&& 0x1f)) ∧
      (ls.first_frame = true ↔ b0.val &&& 0x20 ≠ 0) ∧
      (ls.last_frame = true ↔ b0.val &&& 0x40 ≠ 0) ∧
      ls.entries.length = b0.val &&& 0x1f ∧
      ∀ (k : Nat) (hk : k < ls.entries.length),
        LinkStatusEntry.unpack ((rest.drop (3 * k)).take 3) =
          .ok (ls.entries.get ⟨k, hk⟩) := by
  obtain ⟨es, hes, hlen2, hget⟩ :=
    unpackEntriesAux_spec (b0 :: rest) (b0.val &&& 0x1f) 1 (by simp only [List.length_cons]; omega)
  refine ⟨⟨b0.val &&& 0x20 == 0x20, b0.val &&& 0x40 == 0x40, es⟩, ?_,
    and20_beq_iff b0, and40_beq_iff b0, hlen2, ?_⟩
  · unfold LinkStatus.unpack
    rw [if_neg (by simp)]
    rw [byteAt_zero_cons]
    simp only [Res.bind_ok]
    rw [if_neg (by simp only [List.length_cons]; omega)]
    rw [hes]
    simp only [Res.bind_ok]
    have harith : 1 + (b0.val &&& 0x1f) * 3 = 1 + 3 * (b0.val &&& 0x1f) := by ring
    rw [harith]
  · intro k hk
    have hstep := hget k hk
    have harith : (1 : Nat) + 3 * k = 3 * k + 1 := by ring
    rw [harith, List.drop_succ_cons] at hstep
    exact hstep

/-- C5 witness: the header byte `0b0110_0010` with 6 trailing zero bytes
decodes to first_frame, last_frame, 2 entries and 7 consumed bytes. -/
theorem c5_link_status_unpack_fields_witness :
    ∃ ls, LinkStatus.unpack (toByte 0x62 :: List.replicate 6 (toByte 0)) =
        .ok (ls, 7) ∧
      ls.first_frame = true ∧ ls.last_frame = true ∧ ls.entries.length = 2 := by
  obtain ⟨ls, h1, h2, h3, h4, h5⟩ := c5_link_status_unpack_fields (toByte 0x62)
    (List.replicate 6 (toByte 0)) (by decide)
  have e1 : 1 + 3 * ((toByte 0x62).val &&& 0x1f) = 7 := by decide
  have e2 : (toByte 0x62).val &&& 0x1f = 2 := by decide
  rw [e1] at h1
  rw [e2] at h4
  exact ⟨ls, h1, h2.mpr (by decide), h3.mpr (by decide), h4⟩

theorem unpackNeighborsAux_spec (data : List Byte) :
    ∀ (n offset : Nat) (lst : List Neighbor) (fin : Nat),
      unpackNeighborsAux data n offset = .ok (lst, fin) →
      lst.length = n ∧ fin = offset + 22 * n ∧
      ∀ (k : Nat) (hk : k < lst.length),
        Neighbor.unpack (data.drop (offset + 22 * k)) = .ok (lst.get ⟨k, hk⟩, 22) := by
  intro n
  induction n with
  | zero =>
    intro offset lst fin h
    simp only [unpackNeighborsAux, Res.ok.injEq, Prod.mk.injEq] at h
    obtain ⟨h1, h2⟩ := h
    subst h1
    subst h2
    exact ⟨rfl, by omega, fun k hk => absurd hk (by simp)⟩
  | succ m ih =>
    intro offset lst fin h
    unfold unpackNeighborsAux at h
    simp only [Res.bind_eq_ok, Res.ok.injEq] at h
    obtain ⟨s, hs, nu, hnu, res, hres, heq⟩ := h
    obtain ⟨nb, used⟩ := nu
    have h22 : used = 22 := neighbor_unpack_used hnu
    subst h22
    have hsdrop : s = data.drop offset := by
      unfold sliceFrom at hs
      split at hs
      · exact (Res.ok.injEq _ _ ▸ hs).symm
      · simp at hs
    subst hsdrop
    obtain ⟨hlen, hfin, hget⟩ := ih (offset + 22) res.1 res.2 hres
    rw [Prod.mk.injEq] at heq
    obtain ⟨hl, hf⟩ := heq
    subst hl
    subst hf
    refine ⟨by simp [hlen], by omega, ?_⟩
    intro k hk
    cases k with
    | zero =>
      simpa using hnu
    | succ j =>
      have hj : j < res.1.length := by
        simp only [List.length_cons] at hk
        omega
      have hstep := hget j hj
      have harith : offset + 22 * (j + 1) = offset + 22 + 22 * j := by ring
      rw [harith]
      simpa using hstep

/-- C4: `Neighbor::unpack`, on any buffer of at least 22 bytes on which it
succeeds, decodes the PAN identifier from bytes 0..8, the extended address
from bytes 8..16 (both little-endian), the network address from bytes 16..18,
`DeviceType` from bits 0-1 of byte 18, `RxOnWhenIdle` from bits 2-3 of byte
18, `Relationship` from bits 4-6 of byte 18, `PermitJoining` from bits 6-7 of
byte 19 (the other bits of byte 19 ignored), the depth from byte 20 and the
link quality from byte 21, and consumes exactly 22 bytes; and
`ManagementLinkQualityIndicatorResponse::unpack`, on any buffer of at least 4
bytes on which it succeeds, decodes the status from byte 0, the neighbor
total from byte 1, the index from byte 2, and byte-3-many `Neighbor` records
sequentially in wire order from offset 4 (each consuming 22 bytes), returning
`4 + 22 * count` consumed bytes. -/
theorem c4_neighbor_and_lqi_field_decoding :
    (∀ (b0 b1 b2 b3 b4 b5 b6 b7 b8 b9 b10 b11 b12 b13 b14 b15 b16 b17 b18 b19
        b20 b21 : Byte) (rest : List Byte) (nb : Neighbor) (used : Nat),
      Neighbor.unpack (b0 :: b1 :: b2 :: b3 :: b4 :: b5 :: b6 :: b7 :: b8 :: b9 ::
          b10 :: b11 :: b12 :: b13 :: b14 :: b15 :: b16 :: b17 :: b18 :: b19 ::
          b20 :: b21 :: rest) = .ok (nb, used) →
      nb.pan_identifier = ⟨leVal [b0, b1, b2, b3, b4, b5, b6, b7]⟩ ∧
      nb.extended_address = ⟨leVal [b8, b9, b10, b11, b12, b13, b14, b15]⟩ ∧
      nb.network_address.value.val = b16.val + 256 * b17.val ∧
      DeviceType.tryFrom (b18.val &&& 0x03) = .ok nb.device_type ∧
      RxOnWhenIdle.tryFrom (b18.val >>> 2 &&& 0x03) = .ok nb.rx_idle ∧
      Relationship.tryFrom (b18.val >>> 4 &&& 0x07) = .ok nb.relationship ∧
      PermitJoining.tryFrom (b19.val >>> 6 &&& 0x03) = .ok nb.permit_joining ∧
      nb.depth = b20.val ∧ nb.link_quality = b21.val ∧ used = 22) ∧
    (∀ (h0 h1 h2 h3 : Byte) (rest : List Byte)
        (r : ManagementLinkQualityIndicatorResponse) (used : Nat),
      ManagementLinkQualityIndicatorResponse.unpack (h0 :: h1 :: h2 :: h3 :: rest) =
        .ok (r, used) →
      Status.tryFrom h0.val = .ok r.status ∧
      r.neighbors_total = h1.val ∧
      r.index = h2.val ∧
      r.neighbors.length = h3.val ∧
      used = 4 + 22 * h3.val ∧
      ∀ (k : Nat) (hk : k < r.neighbors.length),
        Neighbor.unpack ((h0 :: h1 :: h2 :: h3 :: rest).drop (4 + 22 * k)) =
          .ok (r.neighbors.get ⟨k, hk⟩, 22)) := by
  constructor
  · intro b0 b1 b2 b3 b4 b5 b6 b7 b8 b9 b10 b11 b12 b13 b14 b15 b16 b17 b18 b19
      b20 b21 rest nb used h
    unfold Neighbor.unpack at h
    rw [if_neg (by simp only [List.length_cons]; omega)] at h
    rw [show slice (b0 :: b1 :: b2 :: b3 :: b4 :: b5 :: b6 :: b7 :: b8 :: b9 ::
        b10 :: b11 :: b12 :: b13 :: b14 :: b15 :: b16 :: b17 :: b18 :: b19 ::
        b20 :: b21 :: rest) 0 8 = .ok [b0, b1, b2, b3, b4, b5, b6, b7] from rfl] at h
    simp only [Res.bind_ok] at h
    rw [show ExtendedAddress.unpack [b0, b1, b2, b3, b4, b5, b6, b7] =
        .ok ⟨leVal [b0, b1, b2, b3, b4, b5, b6, b7]⟩ from rfl] at h
    simp only [Res.bind_ok] at h
    rw [show slice (b0 :: b1 :: b2 :: b3 :: b4 :: b5 :: b6 :: b7 :: b8 :: b9 ::
        b10 :: b11 :: b12 :: b13 :: b14 :: b15 :: b16 :: b17 :: b18 :: b19 ::
        b20 :: b21 :: rest) 8 16 = .ok [b8, b9, b10, b11, b12, b13, b14, b15] from rfl] at h
    simp only [Res.bind_ok] at h
    rw [show ExtendedAddress.unpack [b8, b9, b10, b11, b12, b13, b14, b15] =
        .ok ⟨leVal [b8, b9, b10, b11, b12, b13, b14, b15]⟩ from rfl] at h
    simp only [Res.bind_ok] at h
    rw [show slice (b0 :: b1 :: b2 :: b3 :: b4 :: b5 :: b6 :: b7 :: b8 :: b9 ::
        b10 :: b11 :: b12 :: b13 :: b14 :: b15 :: b16 :: b17 :: b18 :: b19 ::
        b20 :: b21 :: rest) 16 18 = .ok [b16, b17] from rfl] at h
    simp only [Res.bind_ok] at h
    rw [show NetworkAddress.unpack [b16, b17] = .ok ⟨⟨b16.val + 256 * b17.val, by
      have g0 := b16.isLt
      have g1 := b17.isLt
      omega⟩⟩ from rfl] at h
    simp only [Res.bind_ok] at h
    rw [show byteAt (b0 :: b1 :: b2 :: b3 :: b4 :: b5 :: b6 :: b7 :: b8 :: b9 ::
        b10 :: b11 :: b12 :: b13 :: b14 :: b15 :: b16 :: b17 :: b18 :: b19 ::
        b20 :: b21 :: rest) 18 = .ok b18 from by simp [byteAt]] at h
    simp only [Res.bind_ok] at h
    rw [show byteAt (b0 :: b1 :: b2 :: b3 :: b4 :: b5 :: b6 :: b7 :: b8 :: b9 ::
        b10 :: b11 :: b12 :: b13 :: b14 :: b15 :: b16 :: b17 :: b18 :: b19 ::
        b20 :: b21 :: rest) 19 = .ok b19 from by simp [byteAt]] at h
    simp only [Res.bind_ok] at h
    rw [show byteAt (b0 :: b1 :: b2 :: b3 :: b4 :: b5 :: b6 :: b7 :: b8 :: b9 ::
        b10 :: b11 :: b12 :: b13 :: b14 :: b15 :: b16 :: b17 :: b18 :: b19 ::
        b20 :: b21 :: rest) 20 = .ok b20 from by simp [byteAt]] at h
    simp only [Res.bind_ok] at h
    rw [show byteAt (b0 :: b1 :: b2 :: b3 :: b4 :: b5 :: b6 :: b7 :: b8 :: b9 ::
        b10 :: b11 :: b12 :: b13 :: b14 :: b15 :: b16 :: b17 :: b18 :: b19 ::
        b20 :: b21 :: rest) 21 = .ok b21 from by simp [byteAt]] at h
    simp only [Res.bind_ok, Res.bind_eq_ok, Res.ok.injEq] at h
    obtain ⟨dt, hdt, rx, hrx, rel, hrel, pj, hpj, heq⟩ := h
    rw [Prod.mk.injEq] at heq
    obtain ⟨hnb, hused⟩ := heq
    subst hnb
    rw [mask_shift_rx b18] at hrx
    rw [mask_shift_rel b18] at hrel
    rw [mask_shift_pj b19] at hpj
    exact ⟨rfl, rfl, rfl, hdt, hrx, hrel, hpj, rfl, rfl, hused.symm⟩
  · intro h0 h1 h2 h3 rest r used h
    unfold ManagementLinkQualityIndicatorResponse.unpack at h
    rw [if_neg (by simp only [List.length_cons]; omega)] at h
    rw [byteAt_zero_cons] at h
    rw [show byteAt (h0 :: h1 :: h2 :: h3 :: rest) 1 = .ok h1 from by simp [byteAt]] at h
    rw [show byteAt (h0 :: h1 :: h2 :: h3 :: rest) 2 = .ok h2 from by simp [byteAt]] at h
    rw [show byteAt (h0 :: h1 :: h2 :: h3 :: rest) 3 = .ok h3 from by simp [byteAt]] at h
    simp only [Res.bind_ok, Res.bind_eq_ok, Res.ok.injEq] at h
    obtain ⟨st, hst, h⟩ := h
    split at h
    · simp at h
    · rename_i hfit
      simp only [Res.bind_eq_ok, Res.ok.injEq] at h
      obtain ⟨res, hres, heq⟩ := h
      obtain ⟨ns, off⟩ := res
      obtain ⟨hlen, hoff, hget⟩ := unpackNeighborsAux_spec
        (h0 :: h1 :: h2 :: h3 :: rest) h3.val 4 ns off hres
      rw [Prod.mk.injEq] at heq
      obtain ⟨hr, hused⟩ := heq
      subst hr
      refine ⟨hst, rfl, rfl, hlen, by omega, ?_⟩
      intro k hk
      exact hget k hk

theorem c4_neighbor_and_lqi_field_decoding_witness :
    DeviceType.tryFrom ((toByte 0x12).val &&& 0x03) = .ok DeviceType.EndDevice ∧
    RxOnWhenIdle.tryFrom ((toByte 0x12).val >>> 2 &&& 0x03) = .ok RxOnWhenIdle.Off ∧
    Relationship.tryFrom ((toByte 0x12).val >>> 4 &&& 0x07) = .ok Relationship.Child ∧
    PermitJoining.tryFrom ((toByte 0x80).val >>> 6 &&& 0x03) =
      .ok PermitJoining.Unknown ∧
    Status.tryFrom (toByte 0x00).val = .ok Status.Success ∧
    (4 : Nat) = 4 + 22 * (toByte 0x00).val := by
  have hA := c4_neighbor_and_lqi_field_decoding.1 (toByte 0) (toByte 0) (toByte 0)
    (toByte 0) (toByte 0) (toByte 0) (toByte 0) (toByte 0) (toByte 0) (toByte 0)
    (toByte 0) (toByte 0) (toByte 0) (toByte 0) (toByte 0) (toByte 0)
    (toByte 0x34) (toByte 0x12) (toByte 0x12) (toByte 0x80) (toByte 3) (toByte 7) []
    ⟨⟨0⟩, ⟨0⟩, ⟨⟨0x1234, by decide⟩⟩, .EndDevice, .Off, .Child, .Unknown, 3, 7⟩ 22
    (by decide)
  have hB := c4_neighbor_and_lqi_field_decoding.2 (toByte 0x00) (toByte 5) (toByte 7)
    (toByte 0x00) [] ⟨.Success, 5, 7, []⟩ 4 (by decide)
  exact ⟨hA.2.2.2.1, hA.2.2.2.2.1, hA.2.2.2.2.2.1, hA.2.2.2.2.2.2.1, hB.1,
    hB.2.2.2.2.1⟩

/-- C7 counterexample: the 4-byte buffer `01 00 00 01` declares 1 neighbor
entry (needing 26 bytes), so the claim expects a length-mismatch error; but
byte 0 is decoded as a status first and `0x01` is not in the status mapping,
so the decode fails with the out-of-range error instead. -/
theorem c7_status_error_precedes_count_check :
    ManagementLinkQualityIndicatorResponse.unpack
      [toByte 0x01, toByte 0x00, toByte 0x00, toByte 0x01] =
      .error (.unsupportedValue 1) ∧
    ([toByte 0x01, toByte 0x00, toByte 0x00, toByte 0x01] : List Byte).length <
      4 + 22 * 1 ∧
    Error.unsupportedValue 1 ≠ Error.wrongNumberOfBytes := by
  decide

/-- C7 (amended): decode of a buffer shorter than the structure's minimum
length (22 for `Neighbor`, 4 for the LQI response, 1 for `LinkStatus`) fails
with the length-mismatch error; an LQI response whose declared entry count
(byte 3) implies `4 + 22 * count` bytes exceeding the buffer fails with the
length-mismatch error provided byte 0 decodes as a valid status (otherwise
the status decode fails first with its out-of-range error); in all cases no
byte beyond the buffer end is read (the decode never panics). -/
theorem c7_truncated_buffers_rejected :
    (∀ data : List Byte, data.length < 22 →
      Neighbor.unpack data = .error .wrongNumberOfBytes) ∧
    (∀ data : List Byte, data.length < 4 →
      ManagementLinkQualityIndicatorResponse.unpack data = .error .wrongNumberOfBytes) ∧
    (∀ data : List Byte, data.length = 0 →
      LinkStatus.unpack data = .error .wrongNumberOfBytes) ∧
    (∀ (h0 h1 h2 h3 : Byte) (rest : List Byte) (s : Status),
      Status.tryFrom h0.val = .ok s →
      (h0 :: h1 :: h2 :: h3 :: rest).length < 4 + 22 * h3.val →
      ManagementLinkQualityIndicatorResponse.unpack (h0 :: h1 :: h2 :: h3 :: rest) =
        .error .wrongNumberOfBytes) ∧
    (∀ data : List Byte,
      ManagementLinkQualityIndicatorResponse.unpack data ≠ .panic) := by
  refine ⟨fun data h => ?_, fun data h => ?_, fun data h => ?_, ?_, mlqi_unpack_ne_panic⟩
  · unfold Neighbor.unpack
    rw [if_pos h]
  · unfold ManagementLinkQualityIndicatorResponse.unpack
    rw [if_pos h]
  · unfold LinkStatus.unpack
    rw [if_pos h]
  · intro h0 h1 h2 h3 rest s hs hlen
    simp only [List.length_cons] at hlen
    unfold ManagementLinkQualityIndicatorResponse.unpack
    rw [if_neg (by simp only [List.length_cons]; omega)]
    rw [byteAt_zero_cons]
    simp only [Res.bind_ok]
    rw [hs]
    simp only [Res.bind_ok]
    rw [show (1 : Nat) = 0 + 1 from rfl, byteAt_succ_cons, byteAt_zero_cons]
    simp only [Res.bind_ok]
    rw [show (2 : Nat) = 1 + 1 from rfl, byteAt_succ_cons,
      show (1 : Nat) = 0 + 1 from rfl, byteAt_succ_cons, byteAt_zero_cons]
    simp only [Res.bind_ok]
    rw [show (3 : Nat) = 2 + 1 from rfl, byteAt_succ_cons,
      show (2 : Nat) = 1 + 1 from rfl, byteAt_succ_cons,
      show (1 : Nat) = 0 + 1 from rfl, byteAt_succ_cons, byteAt_zero_cons]
    simp only [Res.bind_ok]
    rw [if_pos (by simp only [List.length_cons]; omega)]

theorem c7_truncated_buffers_rejected_witness :
    Neighbor.unpack (List.replicate 21 (toByte 0)) = .error .wrongNumberOfBytes ∧
    ManagementLinkQualityIndicatorResponse.unpack [toByte 0] =
      .error .wrongNumberOfBytes ∧
    LinkStatus.unpack [] = .error .wrongNumberOfBytes ∧
    ManagementLinkQualityIndicatorResponse.unpack
      [toByte 0, toByte 0, toByte 0, toByte 1] = .error .wrongNumberOfBytes ∧
    ManagementLinkQualityIndicatorResponse.unpack [toByte 9] ≠ .panic :=
  ⟨c7_truncated_buffers_rejected.1 _ (by decide),
   c7_truncated_buffers_rejected.2.1 _ (by decide),
   c7_truncated_buffers_rejected.2.2.1 _ (by decide),
   c7_truncated_buffers_rejected.2.2.2.1 (toByte 0) (toByte 0) (toByte 0) (toByte 1)
     [] .Success (by decide) (by decide),
   c7_truncated_buffers_rejected.2.2.2.2 [toByte 9]⟩

/-- The 48-byte sample buffer of the source's
`unpack_link_quality_inicator_response` test (link_quality.rs lines 141-146). -/
def sampleLqiFrame : List Byte :=
  [0x00, 0x02, 0x00, 0x02, 0x38, 0x2e, 0x03, 0xff, 0xff, 0x2e, 0x21, 0x00, 0x38, 0x2e,
   0x03, 0xff, 0xff, 0x2e, 0x21, 0x00, 0x00, 0x00, 0x04, 0x02, 0x00, 0x93, 0x38, 0x2e,
   0x03, 0xff, 0xff, 0x2e, 0x21, 0x00, 0x85, 0xae, 0x21, 0xfe, 0xff, 0x6f, 0x0d, 0x00,
   0x7b, 0xc0, 0x12, 0x02, 0x02, 0x81].map toByte

/-- The value the sample buffer decodes to. -/
def sampleLqiDecoded : ManagementLinkQualityIndicatorResponse :=
  ⟨.Success, 2, 0,
    [⟨⟨0x00212effff032e38⟩, ⟨0x00212effff032e38⟩, ⟨⟨0x0000, by decide⟩⟩,
      .Coordinator, .On, .Parent, .Yes, 0x00, 0x93⟩,
     ⟨⟨0x00212effff032e38⟩, ⟨0x000d6ffffe21ae85⟩, ⟨⟨0xc07b, by decide⟩⟩,
      .EndDevice, .Off, .Child, .Yes, 0x02, 0x81⟩]⟩

/-- C9: Decoding the 48-byte sample buffer with
`ManagementLinkQualityIndicatorResponse::unpack` succeeds and yields
`status = Success`, `neighbors_total = 2`, `index = 0`, exactly 2 `Neighbor`
records, and 48 consumed bytes. -/
theorem c9_sample_buffer_decodes :
    ManagementLinkQualityIndicatorResponse.unpack sampleLqiFrame =
      .ok (sampleLqiDecoded, 48) ∧
    sampleLqiDecoded.status = .Success ∧
    sampleLqiDecoded.neighbors_total = 2 ∧
    sampleLqiDecoded.index = 0 ∧
    sampleLqiDecoded.neighbors.length = 2 := by
  refine ⟨by decide, rfl, rfl, rfl, rfl⟩

end Psila
